import Mathlib

/-!
Verification of the mini shell with pipe support (`src/requirement/req.c`).

The C program is a read-eval loop: it prints a prompt, reads a line with
`fgets`, breaks on end of input or when `strncmp(input, "exit", 4) == 0`,
splits the line on `'|'` with `strtok` (at most `MAX_CMDS` segments, each
passed through `trim`), then for each command forks a worker, wiring adjacent
workers through pipes, and finally calls `wait(NULL)` once per command.

The embedding below models the string processing exactly (C `strtok`
semantics: maximal nonempty runs of non-delimiter characters; C `trim`:
drop leading spaces, then strip trailing spaces/newlines but never the
first remaining character), and models the builder loop as a state machine
over an abstract descriptor namespace: pipe `j` has endpoints
`PipeEnd.readEnd j` / `PipeEnd.writeEnd j`, the parent's open pipe
endpoints are a list, and `close` removes the first occurrence.
Pipe-creation and fork failures are injected through Boolean oracles,
mirroring `pipe(...) == -1` and `fork() < 0`.
-/

def MAX_CMDS : Nat := 10

def MAX_ARGS : Nat := 20

/-- C helper `trim`: skip leading spaces; then from the end, overwrite
trailing `' '`/`'\n'` with NUL while `end > str` — so the first character
after the leading spaces is never stripped. -/
def trim (s : List Char) : List Char :=
  match s.dropWhile (fun c => c = ' ') with
  | [] => []
  | c :: rest => c :: ((rest.reverse.dropWhile (fun c => c = ' ' ∨ c = '\n')).reverse)

/-- `strtok` accumulator: collects maximal nonempty runs of non-delimiter
characters (leading/adjacent delimiters are skipped, no empty tokens). -/
def splitTokAux (isDelim : Char → Bool) (cur : List Char) : List Char → List (List Char)
  | [] => if cur = [] then [] else [cur.reverse]
  | c :: rest =>
    if isDelim c then
      if cur = [] then splitTokAux isDelim [] rest
      else cur.reverse :: splitTokAux isDelim [] rest
    else splitTokAux isDelim (c :: cur) rest

def splitTok (isDelim : Char → Bool) (s : List Char) : List (List Char) :=
  splitTokAux isDelim [] s

def pipeDelim (c : Char) : Bool := c = '|'

def spaceDelim (c : Char) : Bool := c = ' '

/-- The raw pipe-separated segments of a line (`strtok(input, "|")` runs). -/
def rawSegs (line : List Char) : List (List Char) := splitTok pipeDelim line

/-- The command strings of a line: the `while (token && num_cmds < MAX_CMDS)`
loop stores `trim(token)` for at most `MAX_CMDS` segments (excess segments
are silently dropped). -/
def cmds (line : List Char) : List (List Char) :=
  ((rawSegs line).take MAX_CMDS).map trim

def numCmds (line : List Char) : Nat := (cmds line).length

/-- The whitespace tokens of one command (`strtok(cmd, " ")` runs). -/
def rawToks (cmd : List Char) : List (List Char) := splitTok spaceDelim cmd

/-- C helper `parse_args`: stores tokens while `i < MAX_ARGS - 1`, then a
NUL sentinel (the sentinel is left implicit here; the list holds the argv
entries before it). -/
def parse_args (cmd : List Char) : List (List Char) :=
  (rawToks cmd).take (MAX_ARGS - 1)

/-- The termination test `strncmp(input, "exit", 4) == 0`: the first four
characters of the raw line equal `exit` (`strncmp` stops at NUL, so a
shorter line compares unequal). -/
def exitCheck (input : List Char) : Bool :=
  input.take 4 = ['e', 'x', 'i', 't']

/-- One endpoint of the `j`-th pipe created for the current line. -/
inductive PipeEnd
  | readEnd (j : Nat)
  | writeEnd (j : Nat)
deriving DecidableEq, Repr

/-- `close(fd)`: remove the first occurrence of the endpoint from an
open-descriptor list. -/
def closeOne (fd : PipeEnd) : List PipeEnd → List PipeEnd
  | [] => []
  | x :: xs => if x = fd then xs else x :: closeOne fd xs

/-- What one forked worker received and does: `stdinFrom = some q` means
`dup2(readEnd q, STDIN)` then `close(readEnd q)` (the `prev_fd != -1`
branch); `stdoutTo = some p` means `dup2(writeEnd p, STDOUT)` then
`close(readEnd p); close(writeEnd p)` (the `i < num_cmds - 1` branch);
`inherited` is the parent's open pipe endpoints at `fork` time; `argv`
is `parse_args` of the command string. -/
structure ChildSpec where
  stdinFrom : Option Nat
  stdoutTo : Option Nat
  inherited : List PipeEnd
  argv : List (List Char)
deriving DecidableEq, Repr

/-- The pipe endpoints still open in a child after its redirection code ran
(besides the descriptors now installed on the stdin/stdout slots). -/
def childLeftover (c : ChildSpec) : List PipeEnd :=
  let o1 := match c.stdinFrom with
    | some q => closeOne (PipeEnd.readEnd q) c.inherited
    | none => c.inherited
  match c.stdoutTo with
  | some p => closeOne (PipeEnd.writeEnd p) (closeOne (PipeEnd.readEnd p) o1)
  | none => o1

/-- The parent's `if (prev_fd != -1) close(prev_fd);` step, acting on an
open-descriptor list (`prev_fd = some q` holds the read end of pipe `q`). -/
def closePrev (pv : Option Nat) (l : List PipeEnd) : List PipeEnd :=
  match pv with
  | some q => closeOne (PipeEnd.readEnd q) l
  | none => l

/-- Parent-side state of the builder loop: `prev` is `prev_fd` (`none` for
`-1`, `some j` for the read end of pipe `j`), `popen` the parent's open
pipe endpoints, `children` the forked workers so far, `pipes` the number
of `pipe()` calls that succeeded. -/
structure BState where
  prev : Option Nat
  popen : List PipeEnd
  children : List ChildSpec
  pipes : Nat
deriving DecidableEq, Repr

def initB : BState := { prev := none, popen := [], children := [], pipes := 0 }

def pipeMsg : List Char := ['p', 'i', 'p', 'e']

def forkMsg : List Char := ['f', 'o', 'r', 'k']

def execvpMsg : List Char := ['e', 'x', 'e', 'c', 'v', 'p']

/-- Outcome of the per-line `for` loop: `ok` when all iterations ran, `died`
when `pipe` or `fork` failed — the C code then calls `perror` and
`exit(1)`, killing the whole shell process. -/
inductive LineOutcome
  | ok (st : BState)
  | died (st : BState) (msg : List Char)
deriving DecidableEq, Repr

/-- The builder `for (i = 0; i < num_cmds; ++i)` loop, one recursion step per
command. `i < num_cmds - 1` is rendered as `!rest.isEmpty`. Oracles `pf`
(indexed by pipe number) and `ff` (indexed by stage) inject `pipe`/`fork`
failures. Parent-side epilogue of an iteration: close `prev_fd` if set,
then close the new pipe's write end and save its read end as `prev_fd`. -/
def buildGo (pf ff : Nat → Bool) : Nat → List (List Char) → BState → LineOutcome
  | _, [], s => LineOutcome.ok s
  | i, cmd :: rest, s =>
    let more := !rest.isEmpty
    if more && pf s.pipes then
      LineOutcome.died s pipeMsg
    else
      let p := s.pipes
      let s1 := if more then
          { s with popen := s.popen ++ [PipeEnd.readEnd p, PipeEnd.writeEnd p],
                   pipes := p + 1 }
        else s
      if ff i then
        LineOutcome.died s1 forkMsg
      else
        let child : ChildSpec :=
          { stdinFrom := s.prev,
            stdoutTo := if more then some p else none,
            inherited := s1.popen,
            argv := parse_args cmd }
        let s2 := { s1 with children := s1.children ++ [child] }
        let s3 := { s2 with popen := closePrev s.prev s2.popen }
        let s4 := if more then
            { s3 with popen := closeOne (PipeEnd.writeEnd p) s3.popen, prev := some p }
          else s3
        buildGo pf ff (i + 1) rest s4

/-- Failure injection for one line's `pipe` and `fork` calls. -/
structure Oracle where
  pipeFail : Nat → Bool
  forkFail : Nat → Bool

def buildOr (o : Oracle) (cs : List (List Char)) : LineOutcome :=
  buildGo o.pipeFail o.forkFail 0 cs initB

def noF : Nat → Bool := fun _ => false

def noOr : Oracle := { pipeFail := noF, forkFail := noF }

def noOrs : Nat → Oracle := fun _ => noOr

/-- The failure-free run of the builder on a command list. -/
def buildNF (cs : List (List Char)) : LineOutcome := buildOr noOr cs

def buildStateNF (cs : List (List Char)) : BState :=
  match buildNF cs with
  | LineOutcome.ok st => st
  | LineOutcome.died st _ => st

def buildOkNF (cs : List (List Char)) : Bool :=
  match buildNF cs with
  | LineOutcome.ok _ => true
  | LineOutcome.died _ _ => false

def dfltChild : ChildSpec :=
  { stdinFrom := none, stdoutTo := none, inherited := [], argv := [] }

def childAtNF (cs : List (List Char)) (m : Nat) : ChildSpec :=
  (buildStateNF cs).children.getD m dfltChild

/-- Observable supervisor events: the prompt write, a `fork` that returned a
child, one `wait(NULL)` call, and a `perror` report. -/
inductive Event
  | prompt
  | spawn (c : ChildSpec)
  | reap
  | report (msg : List Char)
deriving DecidableEq, Repr

def isReport : Event → Bool
  | Event.report _ => true
  | _ => false

/-- The supervisor `while (1)` loop over the remaining input lines (an empty
list is `fgets` returning NULL, i.e. end of input). Per line: prompt; break
on EOF or the exit check (process then returns 0); otherwise split into
commands, run the builder loop (a `died` outcome is `perror` + `exit(1)`,
ending the whole process with status 1 and reaping nothing), then call
`wait(NULL)` once per command and continue with the next line. -/
def runLines (ors : Nat → Oracle) (k : Nat) : List (List Char) → List Event × Nat
  | [] => ([Event.prompt], 0)
  | line :: rest =>
    if exitCheck line then ([Event.prompt], 0)
    else
      match buildOr (ors k) (cmds line) with
      | LineOutcome.died st msg =>
          (Event.prompt :: (st.children.map Event.spawn ++ [Event.report msg]), 1)
      | LineOutcome.ok st =>
          let r := runLines ors (k + 1) rest
          (Event.prompt :: (st.children.map Event.spawn
              ++ List.replicate (numCmds line) Event.reap ++ r.fst),
           r.snd)

/-- `execvp(args[0], args)` succeeds iff there is a first argument and the
environment resolves it to an executable (`execOk`); `execvp(NULL, ...)`
fails. -/
def execvpResult (execOk : List Char → Bool) (argv : List (List Char)) : Bool :=
  match argv.head? with
  | some prog => execOk prog
  | none => false

/-- A worker after `fork`: it either replaces its image, or — when `execvp`
fails — runs `perror("execvp")` and `exit(1)`. -/
inductive ChildOutcome
  | replaced (argv : List (List Char))
  | failed (reports : List (List Char)) (status : Nat)
deriving DecidableEq, Repr

def childRun (execOk : List Char → Bool) (c : ChildSpec) : ChildOutcome :=
  if execvpResult execOk c.argv then ChildOutcome.replaced c.argv
  else ChildOutcome.failed [execvpMsg] 1

/-! Concrete inputs used to exercise the model (`\n` is what `fgets` leaves
at the end of an ordinary line; a line without `\n` is a final line at end
of input). -/

def lineABC : List Char := "a | b | c".toList ++ ['\n']

def lineAB : List Char := "a|b".toList ++ ['\n']

def lineZ : List Char := "zz".toList ++ ['\n']

def lineExit : List Char := "exit".toList ++ ['\n']

def lineExitfoo : List Char := "exitfoo".toList ++ ['\n']

def lineLsWc : List Char := "ls | | wc".toList ++ ['\n']

def line11 : List Char := "a|b|c|d|e|f|g|h|i|j|k".toList ++ ['\n']

def emptyLine : List Char := ['\n']

def blankLine : List Char := ' ' :: ' ' :: ['\n']

def pipeOnly : List Char := ['|']

/-- A command string of 25 single-character tokens. -/
def cmd25 : List Char := List.intersperse ' ' (List.replicate 25 't')

/-- Every `pipe()` call fails. -/
def failPipeOrs : Nat → Oracle := fun _ => { pipeFail := fun _ => true, forkFail := noF }

/-- The `fork()` for stage 1 fails; everything else succeeds. -/
def failFork1Ors : Nat → Oracle :=
  fun _ => { pipeFail := noF, forkFail := fun i => decide (i = 1) }

/-- The value of `prev_fd` at the start of an iteration, as a function of the
number of pipes created so far: no pipe yet means `-1`, otherwise the read
end of the last pipe. -/
def prevOf : Nat → Option Nat
  | 0 => none
  | k + 1 => some k

/-- The parent's open pipe endpoints at the start of an iteration: just the
read end held in `prev_fd`, if any. -/
def prevOpen : Option Nat → List PipeEnd
  | none => []
  | some q => [PipeEnd.readEnd q]

/-- Closed form of the worker list the failure-free builder loop produces,
starting with `p` pipes already created. -/
def expChildren (p : Nat) : List (List Char) → List ChildSpec
  | [] => []
  | cmd :: rest =>
    if rest.isEmpty then
      [{ stdinFrom := prevOf p, stdoutTo := none,
         inherited := prevOpen (prevOf p), argv := parse_args cmd }]
    else
      { stdinFrom := prevOf p, stdoutTo := some p,
        inherited := prevOpen (prevOf p) ++ [PipeEnd.readEnd p, PipeEnd.writeEnd p],
        argv := parse_args cmd } :: expChildren (p + 1) rest

/-- Closed form of the `j`-th worker of `expChildren p rest`. -/
def mkExp (p : Nat) (rest : List (List Char)) (j : Nat) : ChildSpec :=
  { stdinFrom := prevOf (p + j),
    stdoutTo := if j + 1 < rest.length then some (p + j) else none,
    inherited := prevOpen (prevOf (p + j)) ++
      (if j + 1 < rest.length then [PipeEnd.readEnd (p + j), PipeEnd.writeEnd (p + j)]
       else []),
    argv := parse_args (rest.getD j []) }

theorem closeOne_cons_self (fd : PipeEnd) (l : List PipeEnd) :
    closeOne fd (fd :: l) = l := by
  simp [closeOne]

theorem closePrev_prevOpen (pv : Option Nat) (l : List PipeEnd) :
    closePrev pv (prevOpen pv ++ l) = l := by
  cases pv <;> simp [closePrev, prevOpen, closeOne]

theorem expChildren_cons_cons (p : Nat) (cmd r : List Char) (rs : List (List Char)) :
    expChildren p (cmd :: r :: rs) =
      { stdinFrom := prevOf p, stdoutTo := some p,
        inherited := prevOpen (prevOf p) ++ [PipeEnd.readEnd p, PipeEnd.writeEnd p],
        argv := parse_args cmd } :: expChildren (p + 1) (r :: rs) := rfl

theorem expChildren_single (p : Nat) (cmd : List Char) :
    expChildren p [cmd] =
      [{ stdinFrom := prevOf p, stdoutTo := none,
         inherited := prevOpen (prevOf p), argv := parse_args cmd }] := rfl

theorem expChildren_length (rest : List (List Char)) :
    ∀ p, (expChildren p rest).length = rest.length := by
  induction rest with
  | nil => intro p; simp [expChildren]
  | cons cmd rest ih =>
    intro p
    cases rest with
    | nil => simp [expChildren_single]
    | cons r rs =>
      rw [expChildren_cons_cons, List.length_cons, ih]
      rfl

theorem buildGo_noFail (rest : List (List Char)) : ∀ (i : Nat) (s : BState),
    s.popen = prevOpen s.prev → s.prev = prevOf s.pipes →
    ∃ st : BState, buildGo noF noF i rest s = LineOutcome.ok st
      ∧ st.pipes = s.pipes + (rest.length - 1)
      ∧ st.popen = (if rest.isEmpty then s.popen else [])
      ∧ st.children = s.children ++ expChildren s.pipes rest := by
  induction rest with
  | nil =>
    intro i s hpo hpv
    exact ⟨s, rfl, by simp, by simp, by simp [expChildren]⟩
  | cons cmd rest ih =>
    intro i s hpo hpv
    obtain ⟨pv, po, ch, pp⟩ := s
    simp only at hpo hpv
    subst hpo
    cases rest with
    | nil =>
      have hstep : buildGo noF noF i [cmd] ⟨pv, prevOpen pv, ch, pp⟩ =
          LineOutcome.ok
            ⟨pv, [],
             ch ++ [{ stdinFrom := pv, stdoutTo := none,
                      inherited := prevOpen pv, argv := parse_args cmd }], pp⟩ := by
        cases pv <;> simp [buildGo, noF, closePrev, closeOne, prevOpen]
      subst hpv
      exact ⟨_, hstep, by simp, by simp, by simp [expChildren_single]⟩
    | cons r rs =>
      have hstep : buildGo noF noF i (cmd :: r :: rs) ⟨pv, prevOpen pv, ch, pp⟩ =
          buildGo noF noF (i + 1) (r :: rs)
            ⟨some pp, [PipeEnd.readEnd pp],
             ch ++ [{ stdinFrom := pv, stdoutTo := some pp,
                      inherited := prevOpen pv ++
                        [PipeEnd.readEnd pp, PipeEnd.writeEnd pp],
                      argv := parse_args cmd }], pp + 1⟩ := by
        cases pv <;> simp [buildGo, noF, closePrev, closeOne, prevOpen]
      obtain ⟨st, h1, h2, h3, h4⟩ := ih (i + 1)
        ⟨some pp, [PipeEnd.readEnd pp],
         ch ++ [{ stdinFrom := pv, stdoutTo := some pp,
                  inherited := prevOpen pv ++
                    [PipeEnd.readEnd pp, PipeEnd.writeEnd pp],
                  argv := parse_args cmd }], pp + 1⟩
        (by simp [prevOpen]) (by simp [prevOf])
      subst hpv
      refine ⟨st, hstep.trans h1, ?_, ?_, ?_⟩
      · simp only at h2
        simp only [h2, List.length_cons]
        omega
      · simpa using h3
      · simp only at h4
        rw [h4, expChildren_cons_cons]
        simp

theorem buildNF_spec (cs : List (List Char)) :
    ∃ st : BState, buildNF cs = LineOutcome.ok st ∧ st.pipes = cs.length - 1
      ∧ st.popen = [] ∧ st.children = expChildren 0 cs := by
  obtain ⟨st, h1, h2, h3, h4⟩ := buildGo_noFail cs 0 initB
    (by simp [initB, prevOpen]) (by simp [initB, prevOf])
  exact ⟨st, h1, by simpa [initB] using h2, by simpa [initB] using h3,
    by simpa [initB] using h4⟩

theorem buildOkNF_eq_true (cs : List (List Char)) : buildOkNF cs = true := by
  obtain ⟨st, h1, -, -, -⟩ := buildNF_spec cs
  simp [buildOkNF, h1]

theorem buildStateNF_pipes (cs : List (List Char)) :
    (buildStateNF cs).pipes = cs.length - 1 := by
  obtain ⟨st, h1, h2, -, -⟩ := buildNF_spec cs
  simp [buildStateNF, h1, h2]

theorem buildStateNF_popen (cs : List (List Char)) :
    (buildStateNF cs).popen = [] := by
  obtain ⟨st, h1, -, h3, -⟩ := buildNF_spec cs
  simp [buildStateNF, h1, h3]

theorem buildStateNF_children (cs : List (List Char)) :
    (buildStateNF cs).children = expChildren 0 cs := by
  obtain ⟨st, h1, -, -, h4⟩ := buildNF_spec cs
  simp [buildStateNF, h1, h4]

theorem buildStateNF_children_len (cs : List (List Char)) :
    (buildStateNF cs).children.length = cs.length := by
  rw [buildStateNF_children, expChildren_length]

theorem expChildren_getD (rest : List (List Char)) : ∀ (p j : Nat), j < rest.length →
    (expChildren p rest).getD j dfltChild = mkExp p rest j := by
  induction rest with
  | nil => intro p j h; simp at h
  | cons cmd rest ih =>
    intro p j h
    cases rest with
    | nil =>
      have hj : j = 0 := by
        simp only [List.length_cons, List.length_nil] at h
        omega
      subst hj
      simp [expChildren_single, mkExp]
    | cons r rs =>
      cases j with
      | zero =>
        rw [expChildren_cons_cons]
        simp [mkExp]
      | succ j =>
        rw [expChildren_cons_cons]
        simp only [List.getD_cons_succ]
        rw [ih (p + 1) j (by simpa using h)]
        have harith : p + 1 + j = p + (j + 1) := by omega
        have hcond : (j + 1 + 1 < (cmd :: r :: rs).length) = (j + 1 < (r :: rs).length) := by
          simp only [List.length_cons]
          exact propext ⟨fun hlt => by omega, fun hlt => by omega⟩
        simp [mkExp, harith, hcond]

theorem childAtNF_eq (cs : List (List Char)) (m : Nat) (hm : m < cs.length) :
    childAtNF cs m = mkExp 0 cs m := by
  unfold childAtNF
  rw [buildStateNF_children]
  exact expChildren_getD cs 0 m hm

theorem childLeftover_mkExp (p : Nat) (rest : List (List Char)) (j : Nat) :
    childLeftover (mkExp p rest j) = [] := by
  unfold mkExp childLeftover
  cases hq : prevOf (p + j) with
  | none => by_cases hc : j + 1 < rest.length <;> simp [hc, prevOpen, closeOne]
  | some q => by_cases hc : j + 1 < rest.length <;> simp [hc, prevOpen, closeOne]

theorem runLines_nil (ors : Nat → Oracle) (k : Nat) :
    runLines ors k [] = ([Event.prompt], 0) := rfl

theorem runLines_exit (ors : Nat → Oracle) (k : Nat) (line : List Char)
    (rest : List (List Char)) (h : exitCheck line = true) :
    runLines ors k (line :: rest) = ([Event.prompt], 0) := by
  simp [runLines, h]

theorem runLines_noFail_cons (line : List Char) (rest : List (List Char)) (k : Nat)
    (hex : exitCheck line = false) :
    runLines noOrs k (line :: rest) =
      (Event.prompt :: ((buildStateNF (cmds line)).children.map Event.spawn
          ++ List.replicate (numCmds line) Event.reap
          ++ (runLines noOrs (k + 1) rest).fst),
       (runLines noOrs (k + 1) rest).snd) := by
  obtain ⟨st, h1, -, -, -⟩ := buildNF_spec (cmds line)
  have hstate : buildStateNF (cmds line) = st := by simp [buildStateNF, h1]
  have hb : buildOr (noOrs k) (cmds line) = LineOutcome.ok st := h1
  simp [runLines, hex, hb, hstate]

theorem runLines_died_cons (ors : Nat → Oracle) (k : Nat) (line : List Char)
    (rest : List (List Char)) (st : BState) (msg : List Char)
    (hex : exitCheck line = false)
    (hb : buildOr (ors k) (cmds line) = LineOutcome.died st msg) :
    runLines ors k (line :: rest) =
      (Event.prompt :: (st.children.map Event.spawn ++ [Event.report msg]), 1) := by
  simp [runLines, hex, hb]

/-- C1: For every pipeline of N parsed commands the builder creates exactly
N-1 pipes, and after the construction loop completes the parent holds zero
open pipe endpoints. The per-boundary timing is visible in what each forked
child inherits from the parent: no write end of any earlier boundary is
still open at a later fork (the parent closes each boundary's write end
immediately after forking the stage that feeds it), and the only read ends
open at the fork of stage m are those of boundaries m-1 and m (each read
end is closed at the next iteration; the final boundary's during the last
iteration, before the wait loop). -/
theorem c1_descriptor_hygiene (cs : List (List Char)) :
    buildOkNF cs = true
    ∧ (buildStateNF cs).pipes = cs.length - 1
    ∧ (buildStateNF cs).popen = []
    ∧ ∀ m j : Nat, m < cs.length →
        (PipeEnd.writeEnd j ∈ (childAtNF cs m).inherited → j = m)
        ∧ (PipeEnd.readEnd j ∈ (childAtNF cs m).inherited → j = m ∨ j + 1 = m) := by
  refine ⟨buildOkNF_eq_true cs, buildStateNF_pipes cs, buildStateNF_popen cs, ?_⟩
  intro m j hm
  rw [childAtNF_eq cs m hm]
  unfold mkExp
  simp only [Nat.zero_add]
  by_cases hc : m + 1 < cs.length <;>
    cases m with
    | zero =>
      constructor <;> intro hmem <;>
        simp [prevOf, prevOpen, hc] at hmem <;> omega
    | succ n =>
      constructor <;> intro hmem <;>
        simp [prevOf, prevOpen, hc] at hmem <;> omega

theorem c1_witness :
    (1 < (cmds lineABC).length)
    ∧ PipeEnd.readEnd 0 ∈ (childAtNF (cmds lineABC) 1).inherited
    ∧ (0 = 1 ∨ 0 + 1 = 1) := by
  refine ⟨by decide, by decide, ?_⟩
  exact ((c1_descriptor_hygiene (cmds lineABC)).2.2.2 1 0 (by decide)).2 (by decide)

/-- C2 (code behaviour at the failing input): the source's termination test
compares only the first four characters, so the line `exitfoo` — whose
first whitespace-delimited word is `exitfoo`, not the whole token `exit` —
passes the test, stops the read loop without spawning anything, and ends
the run exactly as `exit` would, contrary to whole-first-word matching. -/
theorem c2_code_behavior :
    exitCheck lineExitfoo = true
    ∧ (rawToks (trim lineExitfoo)).head? = some "exitfoo".toList
    ∧ "exitfoo".toList ≠ "exit".toList
    ∧ runLines noOrs 0 [lineExitfoo, lineABC] = ([Event.prompt], 0)
    ∧ runLines noOrs 0 [lineExitfoo, lineABC] = runLines noOrs 0 [lineExit, lineABC] := by
  refine ⟨by decide, by decide, by decide, by decide, by decide⟩

/-- C3 (counterexample): a pipe-creation failure on `a|b` makes the whole
shell process exit with status 1 — the second input line is never prompted
for — and a fork failure at stage 1 of `a | b | c` kills the shell with the
stage-0 worker spawned but never reaped. This contradicts the claim that a
ResourceError never terminates the Supervisor and that already-spawned
workers are still supervised. -/
theorem c3_counterexample :
    runLines failPipeOrs 0 [lineAB, lineABC] = ([Event.prompt, Event.report pipeMsg], 1)
    ∧ runLines failFork1Ors 0 [lineABC] =
        ([Event.prompt,
          Event.spawn { stdinFrom := none, stdoutTo := some 0,
                        inherited := [PipeEnd.readEnd 0, PipeEnd.writeEnd 0],
                        argv := [['a']] },
          Event.report forkMsg], 1) := by
  constructor <;> decide

/-- C3 (amended): a pipe-creation or process-creation failure is reported
via `perror` and immediately terminates the Supervisor process itself with
exit status 1: no further stage is spawned, the already-spawned workers are
not reaped (no reap event), and the read loop does not continue to another
prompt. -/
theorem c3_fatal_resource_error (ors : Nat → Oracle) (k : Nat) (line : List Char)
    (rest : List (List Char)) (st : BState) (msg : List Char)
    (hex : exitCheck line = false)
    (hb : buildOr (ors k) (cmds line) = LineOutcome.died st msg) :
    runLines ors k (line :: rest) =
      (Event.prompt :: (st.children.map Event.spawn ++ [Event.report msg]), 1) :=
  runLines_died_cons ors k line rest st msg hex hb

theorem c3_witness :
    exitCheck lineAB = false
    ∧ buildOr (failPipeOrs 0) (cmds lineAB) = LineOutcome.died initB pipeMsg
    ∧ runLines failPipeOrs 0 [lineAB] =
        (Event.prompt :: (initB.children.map Event.spawn ++ [Event.report pipeMsg]), 1) := by
  refine ⟨by decide, by decide, ?_⟩
  exact c3_fatal_resource_error failPipeOrs 0 lineAB [] initB pipeMsg (by decide) (by decide)

/-- C4 (counterexample): a line with 11 pipe-separated segments is not
rejected: the parser keeps the first 10 commands (the 11th is silently
dropped), 10 workers are spawned, no error is reported and the run
continues normally to status 0 — there is no TooManyCommands failure.
Likewise a command of 25 tokens yields an argument vector of only 19
entries with no TooManyArguments failure. -/
theorem c4_counterexample :
    (rawSegs line11).length = 11
    ∧ numCmds line11 = 10
    ∧ (buildStateNF (cmds line11)).children.length = 10
    ∧ (runLines noOrs 0 [line11]).fst.filter isReport = []
    ∧ (runLines noOrs 0 [line11]).snd = 0
    ∧ (rawToks cmd25).length = 25
    ∧ (parse_args cmd25).length = 19 := by
  refine ⟨by decide, by decide, by decide, by decide, by decide, by decide, by decide⟩

/-- C4 (amended): capacity overflow is handled by silent truncation, not by
an error: the number of parsed commands is the smaller of `MAX_CMDS` and
the number of pipe-separated segments, a command's argument vector keeps at
most `MAX_ARGS - 1` tokens, and the truncated command list is built without
any failure, spawning exactly one worker per kept command. -/
theorem c4_silent_truncation (line cmd : List Char) :
    numCmds line = min MAX_CMDS (rawSegs line).length
    ∧ (parse_args cmd).length = min (MAX_ARGS - 1) (rawToks cmd).length
    ∧ buildOkNF (cmds line) = true
    ∧ (buildStateNF (cmds line)).children.length = numCmds line := by
  refine ⟨?_, ?_, buildOkNF_eq_true _, buildStateNF_children_len _⟩
  · simp [numCmds, cmds, List.length_take]
  · simp [parse_args, List.length_take]

/-- C5: after spawning the workers of a pipeline, the supervisor performs
exactly `num_cmds` wait calls — one reap per spawned worker, with
`children.length = numCmds line` — all of which precede every event of the
following input lines, so successive lines' process groups never overlap;
the reap count does not depend on any worker's exit status (worker outcomes
do not enter the supervisor state at all). -/
theorem c5_join_barrier (line : List Char) (rest : List (List Char)) (k : Nat)
    (hex : exitCheck line = false) :
    runLines noOrs k (line :: rest) =
      (Event.prompt :: ((buildStateNF (cmds line)).children.map Event.spawn
          ++ List.replicate (numCmds line) Event.reap
          ++ (runLines noOrs (k + 1) rest).fst),
       (runLines noOrs (k + 1) rest).snd)
    ∧ (buildStateNF (cmds line)).children.length = numCmds line :=
  ⟨runLines_noFail_cons line rest k hex, buildStateNF_children_len (cmds line)⟩

theorem c5_witness :
    exitCheck lineABC = false
    ∧ runLines noOrs 0 [lineABC] =
        (Event.prompt :: ((buildStateNF (cmds lineABC)).children.map Event.spawn
            ++ List.replicate (numCmds lineABC) Event.reap
            ++ (runLines noOrs 1 []).fst),
         (runLines noOrs 1 []).snd)
    ∧ (buildStateNF (cmds lineABC)).children.length = numCmds lineABC := by
  have h := c5_join_barrier lineABC [] 0 (by decide)
  exact ⟨by decide, h.1, h.2⟩

/-- C6: an exec failure is local to the affected child: that child reports
`execvp` on its error channel and terminates with status 1, while the
supervisor's behaviour — one spawn per sibling, one reap per command, and
continuation of the read loop with the remaining input — is exactly the
normal trace, unchanged by which programs resolve. -/
theorem c6_exec_failure_local (execOk : List Char → Bool) (line : List Char)
    (rest : List (List Char)) (k i : Nat)
    (hex : exitCheck line = false)
    (hi : i < numCmds line)
    (hfail : execvpResult execOk (childAtNF (cmds line) i).argv = false) :
    childRun execOk (childAtNF (cmds line) i) = ChildOutcome.failed [execvpMsg] 1
    ∧ runLines noOrs k (line :: rest) =
        (Event.prompt :: ((buildStateNF (cmds line)).children.map Event.spawn
            ++ List.replicate (numCmds line) Event.reap
            ++ (runLines noOrs (k + 1) rest).fst),
         (runLines noOrs (k + 1) rest).snd)
    ∧ (buildStateNF (cmds line)).children.length = numCmds line := by
  refine ⟨?_, runLines_noFail_cons line rest k hex, buildStateNF_children_len (cmds line)⟩
  simp [childRun, hfail]

theorem c6_witness :
    exitCheck lineZ = false
    ∧ 0 < numCmds lineZ
    ∧ execvpResult (fun _ => false) (childAtNF (cmds lineZ) 0).argv = false
    ∧ childRun (fun _ => false) (childAtNF (cmds lineZ) 0) = ChildOutcome.failed [execvpMsg] 1 := by
  refine ⟨by decide, by decide, by decide, ?_⟩
  exact (c6_exec_failure_local (fun _ => false) lineZ [] 0 0
    (by decide) (by decide) (by decide)).1

/-- C7: worker `i` of an N-command pipeline follows the stage redirection
pattern: stage 0 has standard input unchanged (`stdinFrom = none`), the
last stage has standard output unchanged (`stdoutTo = none`), an interior
stage has both redirected — stage `i > 0` dups the upstream read end
(pipe `i-1`) onto stdin and stage `i < N-1` dups pipe `i`'s write end onto
stdout — and after its dup/close sequence the child retains no open copy
of any original pipe descriptor it inherited. -/
theorem c7_redirection (cs : List (List Char)) (i : Nat) (hi : i < cs.length) :
    (buildStateNF cs).children.length = cs.length
    ∧ (childAtNF cs i).stdinFrom = (if i = 0 then none else some (i - 1))
    ∧ (childAtNF cs i).stdoutTo = (if i + 1 < cs.length then some i else none)
    ∧ childLeftover (childAtNF cs i) = [] := by
  refine ⟨buildStateNF_children_len cs, ?_, ?_, ?_⟩
  · rw [childAtNF_eq cs i hi]
    cases i <;> simp [mkExp, prevOf]
  · rw [childAtNF_eq cs i hi]
    simp [mkExp]
  · rw [childAtNF_eq cs i hi]
    exact childLeftover_mkExp 0 cs i

theorem c7_witness :
    (1 < (cmds lineABC).length)
    ∧ (childAtNF (cmds lineABC) 1).stdinFrom = some 0
    ∧ (childAtNF (cmds lineABC) 1).stdoutTo = some 1
    ∧ childLeftover (childAtNF (cmds lineABC) 1) = [] := by
  have h := c7_redirection (cmds lineABC) 1 (by decide)
  refine ⟨by decide, ?_, ?_, h.2.2.2⟩
  · rw [h.2.1]; decide
  · rw [h.2.2.1]; decide

/-- C8 (counterexample): an empty input line (just the newline `fgets`
kept) does not parse to zero commands: it parses to the single command
`"\n"` — `trim` cannot strip a lone first character — and the supervisor
forks one worker for it (whose argv is the literal newline token); an
all-blank line behaves the same. -/
theorem c8_counterexample :
    numCmds emptyLine = 1
    ∧ cmds emptyLine = [['\n']]
    ∧ (buildStateNF (cmds emptyLine)).children.length = 1
    ∧ (childAtNF (cmds emptyLine) 0).argv = [['\n']]
    ∧ numCmds blankLine = 1 := by
  refine ⟨by decide, by decide, by decide, by decide, by decide⟩

/-- C8 (amended): whenever a line does parse to zero commands — which
happens only when the line consists entirely of pipe characters (possible
only for a final line with no newline), not for empty or all-whitespace
lines — the supervisor spawns no worker, reaps nothing, and re-prompts for
the next line. -/
theorem c8_zero_commands (line : List Char) (rest : List (List Char)) (k : Nat)
    (hex : exitCheck line = false) (h0 : numCmds line = 0) :
    runLines noOrs k (line :: rest) =
      (Event.prompt :: (runLines noOrs (k + 1) rest).fst,
       (runLines noOrs (k + 1) rest).snd) := by
  have hnil : cmds line = [] := List.length_eq_zero.mp h0
  have h := runLines_noFail_cons line rest k hex
  rw [h, h0, hnil]
  simp [buildStateNF, buildNF, buildOr, noOr, initB, buildGo]

theorem c8_witness :
    exitCheck pipeOnly = false
    ∧ numCmds pipeOnly = 0
    ∧ runLines noOrs 0 [pipeOnly] =
        (Event.prompt :: (runLines noOrs 1 []).fst, (runLines noOrs 1 []).snd) := by
  refine ⟨by decide, by decide, ?_⟩
  exact c8_zero_commands pipeOnly [] 0 (by decide) (by decide)

/-- C9: for the line `ls | | wc`, whose middle segment trims to the empty
string, the program still forks a worker for that segment: three workers
are spawned, the middle worker's argument vector is empty so its first
entry (the `execvp` program name) is NULL, and its `execvp` call fails
unconditionally — the segment is neither rejected with an error nor
skipped. -/
theorem c9_empty_segment_spawn (execOk : List Char → Bool) :
    numCmds lineLsWc = 3
    ∧ cmds lineLsWc = [['l', 's'], [], ['w', 'c']]
    ∧ (buildStateNF (cmds lineLsWc)).children.length = 3
    ∧ (childAtNF (cmds lineLsWc) 1).argv = []
    ∧ (childAtNF (cmds lineLsWc) 1).argv.head? = none
    ∧ childRun execOk (childAtNF (cmds lineLsWc) 1) = ChildOutcome.failed [execvpMsg] 1 := by
  refine ⟨by decide, by decide, by decide, by decide, by decide, rfl⟩

/-- C10: end of input (an exhausted line list) produces exactly the same
result as a termination-directive line: the loop stops after the prompt,
no worker is spawned, and the Supervisor exits with status 0. -/
theorem c10_eof_like_exit (ors : Nat → Oracle) (k : Nat) (line : List Char)
    (rest : List (List Char)) (h : exitCheck line = true) :
    runLines ors k [] = ([Event.prompt], 0)
    ∧ runLines ors k (line :: rest) = runLines ors k []
    ∧ (runLines ors k []).snd = 0 := by
  refine ⟨runLines_nil ors k, ?_, rfl⟩
  rw [runLines_exit ors k line rest h, runLines_nil]

theorem c10_witness :
    exitCheck lineExit = true
    ∧ runLines noOrs 0 [] = ([Event.prompt], 0)
    ∧ runLines noOrs 0 [lineExit, lineABC] = runLines noOrs 0 [] := by
  have h := c10_eof_like_exit noOrs 0 lineExit [lineABC] (by decide)
  exact ⟨by decide, h.1, h.2.1⟩
